import Mathlib

/-!
# Verification of the phase orchestration and process execution engine

A shallow embedding, in Lean, of the core logic of the pipeline system:

* `src/core/sequential_document_builder.py` — the phase orchestrator:
  the developer/tester convergence loops (`_execute_developer_phase`,
  `_execute_tester_phase`), the open-item counters (`_count_open_subtasks`,
  `_count_open_tests`), the analyst phase (`_execute_analyst_phase`) and the
  code-directory sanitizer (`_sanitize_code_directories`).
* `src/llm_clients/gemini_cli_client.py` — the invocation policy
  (`_execute_gemini_cli_command`, `classify_error`) and the streaming process
  runner (`_run_cli_with_streaming`).
* `src/core/task_manager.py` — artifact recording (`update_agent_artifacts`).
* `src/workflows/master_workflow.py` — the progress-percentage writes of
  `execute_workflow`.

Interactions with the outside world (file reads, subprocess outcomes, model
responses, clocks) are abstracted as environments: functions giving the value
each successive external observation returns.  Counters for invocations and
iterations are carried through the definitions as instrumentation so that the
theorems can speak about how often the external tool was invoked.

Python string primitives are re-implemented over `List Char` so that every
definition evaluates inside the kernel (`decide` / `rfl`).
-/

namespace BmadSpec

/-! ## Python string primitives, re-implemented executably -/

/-- Python `str.lower()` restricted to ASCII (all classifier keywords are
ASCII). -/
def pyLower (s : String) : String := String.mk (s.toList.map Char.toLower)

/-- Characters stripped by Python `str.strip()`. -/
def pyIsSpace (c : Char) : Bool :=
  c = ' ' || c = '\t' || c = '\n' || c = '\r' || c = '\x0b' || c = '\x0c'

/-- Python `str.strip()` with no argument: whitespace removed at both ends. -/
def pyStrip (s : String) : String :=
  String.mk (((s.toList.dropWhile pyIsSpace).reverse.dropWhile pyIsSpace).reverse)

/-- Python `s.startswith(pre)`. -/
def pyStartsWith (s pre : String) : Bool := List.isPrefixOf pre.toList s.toList

/-- Python `s.endswith(post)`. -/
def pyEndsWith (s post : String) : Bool :=
  List.isPrefixOf post.toList.reverse s.toList.reverse

/-- `sub` occurs somewhere in `s`, over character lists. -/
def charsContain (s sub : List Char) : Bool :=
  match s with
  | [] => sub.isEmpty
  | _ :: rest => List.isPrefixOf sub s || charsContain rest sub

/-- Python `sub in s` for strings. -/
def pyContains (s sub : String) : Bool := charsContain s.toList sub.toList

/-- Python `s.replace(a, b)` for single characters (used for `\\` → `/`). -/
def pyReplaceChar (s : String) (a b : Char) : String :=
  String.mk (s.toList.map fun c => if c = a then b else c)

/-- Split a character list at newline characters (the segments that Python's
`re.MULTILINE` anchor `^` starts). -/
def splitOnNewlines : List Char → List (List Char)
  | [] => [[]]
  | '\n' :: rest => [] :: splitOnNewlines rest
  | c :: rest =>
    match splitOnNewlines rest with
    | [] => [[c]]
    | l :: ls => (c :: l) :: ls

/-! ## Progress-marker counters

`_count_open_subtasks` / `_count_open_tests`
(`sequential_document_builder.py:1298` and `:1634`): the marker file's content
is read if the file exists, and the matches of the line-anchored regular
expression `^- \[ \] ` are counted.  A missing or unreadable file yields 0.
The file-system read is abstracted: `Option String` is the content of the
marker file when it exists. -/

/-- Count of lines beginning with `"- [ ] "` — `len(re.findall(r"^- \[ \] ",
content, flags=re.MULTILINE))`. -/
def countOpenItems (content : String) : Nat :=
  ((splitOnNewlines content.toList).filter
    (fun line => List.isPrefixOf "- [ ] ".toList line)).length

/-- `_count_open_subtasks`: open items of `.sureai/tasks_list.md`, 0 when the
file does not exist. -/
def countOpenSubtasks (tasksList : Option String) : Nat :=
  match tasksList with
  | none => 0
  | some content => countOpenItems content

/-- `_count_open_tests`: open items of `.sureai/test-list.md`, 0 when the file
does not exist. -/
def countOpenTests (testList : Option String) : Nat :=
  match testList with
  | none => 0
  | some content => countOpenItems content

/-! ## Developer phase convergence loop

`_execute_developer_phase`, lines 1201–1292.  The loop re-reads the marker and
re-invokes the external tool; the environment abstracts both: `counts k` is
what the `k`-th call of `_count_open_subtasks` returns, and `contOk k` is
whether the `k`-th continuation invocation returns a normal response (`false`
models a response string starting with `"error generating response"`, which
makes the loop `break`).  Invocation/iteration counters and the `improved`
flag are carried as instrumentation. -/

/-- External observations consumed by the developer convergence loop. -/
structure DevEnv where
  counts : Nat → Nat
  contOk : Nat → Bool

/-- The update of the `improved` flag at the top of a loop iteration:
`if last_remaining is not None and remaining >= last_remaining:
improved = False`. -/
def devImprovedUpdate (lastRemaining : Option Nat) (remaining : Nat)
    (improved : Bool) : Bool :=
  match lastRemaining with
  | some l => if l ≤ remaining then false else improved
  | none => improved

/-- Exit of the `while iterations < max_iterations` loop: either the
`remaining == 0` early return (reported as success) or falling through to the
post-loop code, with the read cursor, the `improved` flag and the counters at
that point. -/
inductive DevLoopOut
  | earlySuccess (improved : Bool) (invocations iterations : Nat)
  | fallThrough (readIdx : Nat) (improved : Bool) (invocations iterations : Nat)
deriving DecidableEq, Repr

/-- The developer `while` loop.  Arguments: remaining iteration budget
(`max_iterations - iterations`), index of the next `_count_open_subtasks`
read, number of continuation invocations made so far, iterations executed so
far, `last_remaining`, `improved`. -/
def devLoop (env : DevEnv) :
    Nat → Nat → Nat → Nat → Option Nat → Bool → DevLoopOut
  | 0, readIdx, invs, iters, _, improved => .fallThrough readIdx improved invs iters
  | fuel + 1, readIdx, invs, iters, lastRemaining, improved =>
    if env.counts readIdx = 0 then .earlySuccess improved invs iters
    else if env.contOk invs then
      devLoop env fuel (readIdx + 1) (invs + 1) (iters + 1)
        (some (env.counts readIdx))
        (devImprovedUpdate lastRemaining (env.counts readIdx) improved)
    else
      .fallThrough (readIdx + 1)
        (devImprovedUpdate lastRemaining (env.counts readIdx) improved)
        (invs + 1) (iters + 1)

/-- Result of `_execute_developer_phase`'s convergence section: the returned
`status` and `remaining_subtasks` fields, plus instrumentation (iterations
executed, invocations issued, whether the final best-effort attempt ran, and
the final value of the `improved` local). -/
structure DevResult where
  status : String
  remaining : Nat
  iterationsRun : Nat
  invocations : Nat
  finalAttempted : Bool
  improved : Bool
deriving DecidableEq, Repr

/-- `_execute_developer_phase` from the convergence loop on (line 1201): run
the loop with `max_iterations = 10`; on fall-through re-count, derive
`status = 'success' if final == 0 else ('partial' if improved else 'failed')`,
and when items remain issue one final best-effort invocation and re-count,
upgrading the status to success if the re-count is 0. -/
def executeDeveloperPhase (env : DevEnv) : DevResult :=
  match devLoop env 10 0 0 0 none true with
  | .earlySuccess improved invs iters =>
    { status := "success", remaining := 0, iterationsRun := iters,
      invocations := invs, finalAttempted := false, improved := improved }
  | .fallThrough readIdx improved invs iters =>
    if env.counts readIdx = 0 then
      { status := "success", remaining := env.counts readIdx,
        iterationsRun := iters, invocations := invs,
        finalAttempted := false, improved := improved }
    else
      { status :=
          if env.counts (readIdx + 1) = 0 then "success"
          else if improved then "partial" else "failed",
        remaining := env.counts (readIdx + 1),
        iterationsRun := iters, invocations := invs + 1,
        finalAttempted := true, improved := improved }

/-! ## Tester phase convergence loop

`_execute_tester_phase`, lines 1585–1632.  `counts k` is the value of the
`k`-th `_count_open_tests` call.  Errors of the per-iteration invocation are
logged and ignored (`pass`), so no invocation oracle is needed.  There is no
`improved` flag and no final best-effort attempt in this loop. -/

/-- External observations consumed by the tester convergence loop. -/
structure TesterEnv where
  counts : Nat → Nat

/-- Result of `_execute_tester_phase`'s convergence section: `status`,
`remaining_tests`, plus instrumentation. -/
structure TesterResult where
  status : String
  remaining : Nat
  iterationsRun : Nat
  invocations : Nat
deriving DecidableEq, Repr

/-- The `while remaining_tests and iteration < max_iterations` loop.  Returns
the index of the next `_count_open_tests` read and the number of iterations
executed. -/
def testerLoop (env : TesterEnv) : Nat → Nat → Nat → Nat → Nat × Nat
  | 0, readIdx, iters, _ => (readIdx, iters)
  | fuel + 1, readIdx, iters, remaining =>
    if remaining = 0 then (readIdx, iters)
    else testerLoop env fuel (readIdx + 1) (iters + 1) (env.counts readIdx)

/-- `_execute_tester_phase` from the convergence loop on (line 1585): initial
count, loop with `max_iterations = 30` (one invocation per iteration), then a
final re-count; `status` is `'success'` when the re-count is 0 and
`'partial'` otherwise. -/
def executeTesterPhase (env : TesterEnv) : TesterResult :=
  let p := testerLoop env 30 1 0 (env.counts 0)
  { status := if env.counts p.1 = 0 then "success" else "partial",
    remaining := env.counts p.1, iterationsRun := p.2, invocations := p.2 }

/-! ## Analyst phase

`_execute_analyst_phase`, lines 552–645: one invocation creates the
user-prompt-specific agent file, a second creates the analysis/requirements
documents, and the phase returns success unconditionally.  The progress
marker is never read and no convergence loop runs in this phase. -/

/-- Responses of the two analyst invocations. -/
structure AnalystEnv where
  agentFileResponse : String
  docsResponse : String

/-- Returned status and response, plus the number of
`generate_single_response` calls the phase makes. -/
structure AnalystResult where
  status : String
  response : String
  invocations : Nat
deriving DecidableEq, Repr

/-- `_execute_analyst_phase`: two invocations, unconditional success. -/
def executeAnalystPhase (env : AnalystEnv) : AnalystResult :=
  { status := "success", response := env.docsResponse, invocations := 2 }

/-! ## Error classification and the invocation policy

`classify_error` (gemini_cli_client.py:382) and
`_execute_gemini_cli_command` (lines 306–512).  The outcome of each
subprocess run and the elapsed clock at the top of each attempt are abstracted
into an environment; the per-attempt timeout arithmetic only shapes those
outcomes and is absorbed by the abstraction. -/

/-- `GeminiCLIError(code, message)`. -/
structure GeminiCLIError where
  code : String
  message : String
deriving DecidableEq, Repr

/-- Substrings mapped to `quota_exceeded` by `classify_error`. -/
def quotaKeywords : List String :=
  ["quota", "exceeded your current quota", "rate limit", "too many requests",
   "status: 429", "resource_exhausted"]

/-- Substrings mapped to `unauthorized` by `classify_error`. -/
def unauthorizedKeywords : List String :=
  ["unauthorized", "invalid api key", "status: 401", "forbidden",
   "status: 403"]

/-- Substrings mapped to `timeout` by `classify_error`. -/
def timeoutKeywords : List String := ["timeout", "timed out"]

/-- `classify_error(stderr_text)`: substring matching on the lower-cased
diagnostic text, quota first, then authorization, then timeout. -/
def classifyError (stderrText : String) : Option GeminiCLIError :=
  if stderrText = "" then none
  else if quotaKeywords.any (fun k => pyContains (pyLower stderrText) k) then
    some ⟨"quota_exceeded", pyStrip stderrText⟩
  else if unauthorizedKeywords.any
      (fun k => pyContains (pyLower stderrText) k) then
    some ⟨"unauthorized", pyStrip stderrText⟩
  else if timeoutKeywords.any (fun k => pyContains (pyLower stderrText) k) then
    some ⟨"timeout", pyStrip stderrText⟩
  else none

/-- (stdout, stderr, exit code) of one completed subprocess run. -/
structure RunOk where
  stdout : String
  stderr : String
  exitCode : Int
deriving DecidableEq, Repr

/-- A subprocess run either completes or raises `subprocess.TimeoutExpired`. -/
inductive RunOutcome
  | ok (r : RunOk)
  | timedOut
deriving DecidableEq, Repr

/-- External observations of `_execute_gemini_cli_command`: the elapsed clock
at the top of attempt `k`, and the outcome of the stdin-mode and arg-mode
runs of attempt `k`.  Stdin-mode output arrives already stripped (the
streaming runner strips before returning). -/
structure CliEnv where
  elapsedAt : Nat → Nat
  stdinRun : Nat → RunOutcome
  argRun : Nat → RunOutcome

/-- What `_execute_gemini_cli_command` delivers to its caller: a response
text, a raised `GeminiCLIError`, a raised `subprocess.TimeoutExpired`, or a
raised plain `Exception`. -/
inductive CliResult
  | success (text : String)
  | failure (code message : String)
  | timeoutRaised (message : String)
  | failureOther (message : String)
deriving DecidableEq, Repr

/-- How many stdin-mode and arg-mode subprocess runs were started. -/
structure CliStats where
  stdinAttempts : Nat
  argAttempts : Nat
deriving DecidableEq, Repr

/-- Control transfer at the end of one attempt: return/raise to the caller,
go to the next attempt recording `last_exception`, or go to the next attempt
with nothing recorded (the arg-mode inner handler swallows the error). -/
inductive AttemptOut
  | done (r : CliResult)
  | retryNext (lastExc : CliResult)
  | swallowedContinue
deriving DecidableEq, Repr

/-- One attempt's control transfer plus how many runs it started. -/
structure AttemptResult where
  out : AttemptOut
  stdinRuns : Nat
  argRuns : Nat
deriving DecidableEq, Repr

/-- The `except GeminiCLIError` handler (line 492): `unauthorized` and
`quota_exceeded` re-raise immediately whatever the remaining budget; other
classified errors re-raise only once the budget is spent. -/
def handleClassified (maxRetries attempt : Nat) (e : GeminiCLIError) :
    AttemptOut :=
  if e.code = "unauthorized" ∨ e.code = "quota_exceeded" ∨
      maxRetries ≤ attempt then
    .done (.failure e.code e.message)
  else .retryNext (.failure e.code e.message)

/-- One iteration of the `for attempt in range(max_retries + 1)` loop
(lines 396–509): overall-cap abort, stdin mode, classification, arg-mode
fallback, and the three `except` handlers. -/
def attemptStep (env : CliEnv) (overallCap maxRetries attempt : Nat) :
    AttemptResult :=
  if overallCap ≤ env.elapsedAt attempt then
    if attempt < maxRetries then
      ⟨.retryNext (.failureOther "Overall timeout exceeded"), 0, 0⟩
    else ⟨.done (.failureOther "Overall timeout exceeded"), 0, 0⟩
  else
    match env.stdinRun attempt with
    | .timedOut =>
      if attempt < maxRetries then
        ⟨.retryNext (.timeoutRaised "Gemini CLI command timed out"), 1, 0⟩
      else
        ⟨.done (.failure "timeout"
          "Gemini CLI command timed out after all retry attempts"), 1, 0⟩
    | .ok r =>
      if r.exitCode = 0 then
        if r.stdout ≠ "" then ⟨.done (.success r.stdout), 1, 0⟩
        else if r.stderr ≠ "" then
          match classifyError r.stderr with
          | some e => ⟨handleClassified maxRetries attempt e, 1, 0⟩
          | none => ⟨.done (.success r.stderr), 1, 0⟩
        else ⟨.done (.success "OK"), 1, 0⟩
      else
        match classifyError r.stderr with
        | some e => ⟨handleClassified maxRetries attempt e, 1, 0⟩
        | none =>
          match env.argRun attempt with
          | .timedOut => ⟨.swallowedContinue, 1, 1⟩
          | .ok a =>
            if a.exitCode = 0 then
              if pyStrip a.stdout ≠ "" then
                ⟨.done (.success (pyStrip a.stdout)), 1, 1⟩
              else if pyStrip a.stderr ≠ "" then
                match classifyError (pyStrip a.stderr) with
                | some e => ⟨handleClassified maxRetries attempt e, 1, 1⟩
                | none => ⟨.done (.success (pyStrip a.stderr)), 1, 1⟩
              else ⟨.done (.success "OK"), 1, 1⟩
            else
              match classifyError (pyStrip a.stderr) with
              | some e => ⟨handleClassified maxRetries attempt e, 1, 1⟩
              | none => ⟨.swallowedContinue, 1, 1⟩

/-- The attempt loop; on fuel exhaustion, `raise last_exception if
last_exception else GeminiCLIError("unknown", ...)`. -/
def geminiAttemptLoop (env : CliEnv) (overallCap maxRetries : Nat) :
    Nat → Nat → CliStats → Option CliResult → CliResult × CliStats
  | 0, _, stats, lastExc =>
    (lastExc.getD (.failure "unknown" "Unknown error occurred"), stats)
  | fuel + 1, attempt, stats, lastExc =>
    match attemptStep env overallCap maxRetries attempt with
    | ⟨.done r, s, a⟩ =>
      (r, ⟨stats.stdinAttempts + s, stats.argAttempts + a⟩)
    | ⟨.retryNext e, s, a⟩ =>
      geminiAttemptLoop env overallCap maxRetries fuel (attempt + 1)
        ⟨stats.stdinAttempts + s, stats.argAttempts + a⟩ (some e)
    | ⟨.swallowedContinue, s, a⟩ =>
      geminiAttemptLoop env overallCap maxRetries fuel (attempt + 1)
        ⟨stats.stdinAttempts + s, stats.argAttempts + a⟩ lastExc

/-- `_execute_gemini_cli_command`: `max_retries + 1` bounded attempts. -/
def executeGeminiCliCommand (env : CliEnv) (overallCap maxRetries : Nat) :
    CliResult × CliStats :=
  geminiAttemptLoop env overallCap maxRetries (maxRetries + 1) 0 ⟨0, 0⟩ none

/-! ## Streaming process runner

`_run_cli_with_streaming`, lines 514–602.  The loop's external observations
are a trace of iterations: the wall clock at the top of the iteration, the
process's exit status, and the readiness events delivered by the selector
(a line of data, or an empty read meaning the stream closed). -/

/-- One selector readiness event: which stream, the clock when the line was
read, and the line (`""` models a read from a closed stream). -/
structure StreamEvent where
  isStdout : Bool
  time : Nat
  data : String
deriving DecidableEq, Repr

/-- One iteration of the `while True` read loop. -/
structure LoopIter where
  now : Nat
  exited : Bool
  events : List StreamEvent
deriving DecidableEq, Repr

/-- The raised `subprocess.TimeoutExpired(cmd, t)`: it carries the violated
bound only — the accumulated stdout/stderr buffers are not part of it, so
they are discarded.  `processKilled` records that `process.kill()` ran just
before the raise. -/
structure StreamTimeout where
  timeout : Nat
  processKilled : Bool
deriving DecidableEq, Repr

/-- Mutable state of the read loop: `last_output_time`, the two chunk
buffers, and which streams are still registered with the selector. -/
structure RunState where
  lastOutput : Nat
  stdoutChunks : List String
  stderrChunks : List String
  stdoutOpen : Bool
  stderrOpen : Bool
deriving DecidableEq, Repr

/-- Handling of one readiness event (`for key, _ in events`): an empty read
unregisters the stream; a line resets `last_output_time` and is appended to
the stream's buffer. -/
def processEvent (st : RunState) (ev : StreamEvent) : RunState :=
  if ev.isStdout && st.stdoutOpen then
    if ev.data = "" then { st with stdoutOpen := false }
    else { st with lastOutput := ev.time,
                   stdoutChunks := st.stdoutChunks ++ [ev.data] }
  else if !ev.isStdout && st.stderrOpen then
    if ev.data = "" then { st with stderrOpen := false }
    else { st with lastOutput := ev.time,
                   stderrChunks := st.stderrChunks ++ [ev.data] }
  else st

/-- The `while True` loop of `_run_cli_with_streaming`: overall-timeout
check, idle-timeout check, exit check, then event processing.  `.ok none`
stands for a trace that ends before the process does (the real loop would
keep polling). -/
def runCliWithStreaming (overall idle start : Nat) (exitCode : Int) :
    List LoopIter → RunState →
      Except StreamTimeout (Option (String × String × Int))
  | [], _ => .ok none
  | iter :: rest, st =>
    if overall < iter.now - start then .error ⟨overall, true⟩
    else if idle < iter.now - st.lastOutput then .error ⟨idle, true⟩
    else if iter.exited && !st.stdoutOpen && !st.stderrOpen then
      .ok (some (pyStrip (String.join st.stdoutChunks),
                 pyStrip (String.join st.stderrChunks), exitCode))
    else
      runCliWithStreaming overall idle start exitCode rest
        (iter.events.foldl processEvent st)

/-! ## Code-directory sanitizer

`_sanitize_code_directories`, lines 402–457: the walk of `backend/` and
`frontend/` is abstracted as the list of files it visits (basename and
content). -/

/-- A file visited by the walk. -/
structure CodeFile where
  name : String
  content : String
deriving DecidableEq, Repr

/-- The `placeholder_map` literal (lines 408–425). -/
def placeholderMap : List (String × String) :=
  [(".py", "# Placeholder - to be implemented by Developer agent\n"),
   (".js", "// Placeholder - to be implemented by Developer agent\n"),
   (".ts", "// Placeholder - to be implemented by Developer agent\n"),
   (".tsx", "// Placeholder - to be implemented by Developer agent\n"),
   (".jsx", "// Placeholder - to be implemented by Developer agent\n"),
   (".html", "<!-- Placeholder - to be implemented by Developer agent -->\n"),
   (".css", "/* Placeholder - to be implemented by Developer agent */\n"),
   (".scss", "/* Placeholder - to be implemented by Developer agent */\n"),
   (".go", "// Placeholder - to be implemented by Developer agent\n"),
   (".java", "// Placeholder - to be implemented by Developer agent\n"),
   (".kt", "// Placeholder - to be implemented by Developer agent\n"),
   (".rb", "# Placeholder - to be implemented by Developer agent\n"),
   (".php", "<?php /* Placeholder - to be implemented by Developer agent */ ?>\n"),
   (".cs", "// Placeholder - to be implemented by Developer agent\n"),
   (".swift", "// Placeholder - to be implemented by Developer agent\n"),
   (".rs", "// Placeholder - to be implemented by Developer agent\n")]

/-- `os.path.splitext(name)[1]` on a basename: the suffix from the last dot,
empty when every character before that dot is itself a dot (so `.gitkeep`
has no extension). -/
def splitextExt (name : String) : String :=
  match name.toList.reverse.dropWhile (fun c => c ≠ '.') with
  | [] => ""
  | _ :: before =>
    if before.any (fun c => c ≠ '.') then
      String.mk
        ('.' :: (name.toList.reverse.takeWhile (fun c => c ≠ '.')).reverse)
    else ""

/-- `placeholder_map.get(ext, 'Placeholder - to be implemented by Developer
agent\n')` with `ext = os.path.splitext(fname)[1].lower()`. -/
def placeholderFor (name : String) : String :=
  (placeholderMap.lookup (pyLower (splitextExt name))).getD
    "Placeholder - to be implemented by Developer agent\n"

/-- The per-file action of the walk (lines 430–445): `.gitkeep` is skipped;
a file whose content has any non-whitespace character is overwritten with the
placeholder; whitespace-only files are left unchanged. -/
def sanitizeFile (f : CodeFile) : CodeFile :=
  if f.name = ".gitkeep" then f
  else if pyStrip f.content ≠ "" then
    { f with content := placeholderFor f.name }
  else f

/-- `_sanitize_code_directories` over the visited files. -/
def sanitizeCodeDirectories (files : List CodeFile) : List CodeFile :=
  files.map sanitizeFile

/-! ## Artifact recording

`update_agent_artifacts` (task_manager.py:334): filter the reported paths by
the per-agent allow-list, then derive the in-progress-file hint. -/

/-- The `agent_outputs` literal (lines 349–359). -/
def agentOutputsTable : List (String × List String) :=
  [("orchestrator",
    [".sureai/.orchestrator_breakdown.md", ".sureai/.orchestrator_plan.md"]),
   ("analyst",
    [".sureai/analysis_document.md", ".sureai/requirements_document.md"]),
   ("architect",
    [".sureai/architecture_document.md", ".sureai/tech_stack_document.md"]),
   ("pm", [".sureai/prd_document.md", ".sureai/project_plan.md"]),
   ("sm", [".sureai/tasks_list.md", ".sureai/sprint_plan.md"]),
   ("developer", [".sureai/tasks_list.md", "backend/", "frontend/"]),
   ("devops",
    ["deployment_config.yml", "Dockerfile.backend", "Dockerfile.frontend",
     "docker-compose.yml", "nginx.conf"]),
   ("tester", [".sureai/test-list.md"]),
   ("directory_structure", ["frontend", "backend", ".io8project", ".sureai"])]

/-- `agent_outputs.get(agent_name, [])`. -/
def agentOutputs (agent : String) : List String :=
  (agentOutputsTable.lookup agent).getD []

/-- `p.replace('\\', '/')`. -/
def normPath (p : String) : String := pyReplaceChar p '\\' '/'

/-- The per-path keep condition: equal to an allowed path, or under an
allowed prefix, or the agent has no allow-list at all. -/
def keepArtifact (allowed : List String) (norm : String) : Bool :=
  allowed.any (fun a => norm = a || pyStartsWith norm a) || allowed.isEmpty

/-- The `filtered` list (lines 361–366). -/
def filteredArtifacts (agent : String) (filesCreated : List String) :
    List String :=
  (filesCreated.map normPath).filter (keepArtifact (agentOutputs agent))

/-- The `md_files` list (lines 374–377): markdown files under `.sureai`. -/
def sureaiMdFiles (filtered : List String) : List String :=
  filtered.filter (fun f => pyEndsWith f ".md" &&
    (pyStartsWith f ".sureai/" || pyContains f "/.sureai/"))

/-- The in-progress-file heuristic (lines 371–393), including the final
"no dot, no slash means a directory" rejection. -/
def chooseInProgress (agent : String) (filtered : List String) :
    Option String :=
  let ip0 : Option String :=
    if agent = "developer" ∨ agent = "sm" then
      filtered.find? (fun f => pyEndsWith f "tasks_list.md")
    else none
  let ip1 : Option String :=
    if agent = "tester" ∧ ip0 = none then
      filtered.find? (fun f => pyEndsWith f "test-list.md")
    else ip0
  let ip2 : Option String :=
    match ip1 with
    | none => (sureaiMdFiles filtered).head?
    | some f => some f
  match ip2 with
  | none => none
  | some f =>
    if !pyContains f "/" && !pyContains f "." then none else some f

/-- `update_agent_artifacts`' stored `files_created` and
`in_progress_file`. -/
def updateAgentArtifacts (agent : String) (filesCreated : List String) :
    List String × Option String :=
  (filteredArtifacts agent filesCreated,
   chooseInProgress agent (filteredArtifacts agent filesCreated))

/-- Written from the claim's words, to be compared with the code: the stored
list holds exactly the reported (normalized) paths that equal an allow-listed
path or start with an allow-listed prefix. -/
def specFilteredArtifacts (agent : String) (filesCreated : List String) :
    List String :=
  (filesCreated.map normPath).filter
    (fun n => (agentOutputs agent).any (fun a => n = a || pyStartsWith n a))

/-- Written from the claim's words, to be compared with the code: prefer the
path ending in `tasks_list.md` for developer and sm, the path ending in
`test-list.md` for tester, falling back to the first `.sureai` markdown
file. -/
def specInProgressHint (agent : String) (filtered : List String) :
    Option String :=
  if agent = "developer" ∨ agent = "sm" then
    match filtered.find? (fun f => pyEndsWith f "tasks_list.md") with
    | some f => some f
    | none => (sureaiMdFiles filtered).head?
  else if agent = "tester" then
    match filtered.find? (fun f => pyEndsWith f "test-list.md") with
    | some f => some f
    | none => (sureaiMdFiles filtered).head?
  else (sureaiMdFiles filtered).head?

/-! ## Workflow progress writes

`execute_workflow` (master_workflow.py:128–268): for stage `i` of `n` the
loop writes `int((i / n) * 100)` at the start and `int(((i + 1) / n) * 100)`
at the end; after the loop it writes `100`.  A failure during stage `i`
returns after that stage's start write.  Division is the `Nat` floor, which
is what `int()` applied to the non-negative float computes here. -/

/-- Writes emitted from stage `i` on, with `fuel = n - i` stages left;
`failAt = some k` models the run failing during stage `k`. -/
def workflowGo (n : Nat) (failAt : Option Nat) : Nat → Nat → List Nat
  | _, 0 => [100]
  | i, fuel + 1 =>
    if failAt = some i then [i * 100 / n]
    else (i * 100 / n) :: ((i + 1) * 100 / n) :: workflowGo n failAt (i + 1) fuel

/-- All progress-percentage writes of one `execute_workflow` run over `n`
stages. -/
def workflowProgressWrites (n : Nat) (failAt : Option Nat) : List Nat :=
  workflowGo n failAt 0 n

/-! ## Concrete inputs used by witnesses and counterexamples -/

/-- A developer environment whose marker always reads 5 open items and whose
continuations never error. -/
def constDevEnv : DevEnv := ⟨fun _ => 5, fun _ => true⟩

/-- A developer environment whose marker file never exists. -/
def zeroDevEnv : DevEnv := ⟨fun _ => 0, fun _ => true⟩

/-- A tester environment whose marker always reads 5 open items. -/
def stalledTesterEnv : TesterEnv := ⟨fun _ => 5⟩

/-- A tester environment whose marker file never exists. -/
def zeroTesterEnv : TesterEnv := ⟨fun _ => 0⟩

/-- The spec's quota scenario: the stdin-mode run exits 1 with diagnostic
`429 too many requests`. -/
def quotaCliEnv : CliEnv :=
  ⟨fun _ => 0, fun _ => .ok ⟨"", "429 too many requests", 1⟩,
   fun _ => .ok ⟨"", "", 0⟩⟩

/-- An iteration observed past the overall budget. -/
def overallTimeoutIter : LoopIter := ⟨20, false, []⟩

/-- An iteration observed within the overall budget but past the idle
budget. -/
def idleTimeoutIter : LoopIter := ⟨5, false, []⟩

/-- The runner's state at loop entry. -/
def initialStreamState : RunState := ⟨0, [], [], true, true⟩

/-- A Python file containing real implementation code. -/
def samplePyFile : CodeFile := ⟨"app.py", "print('hello')\n"⟩

/-- The spec's analyst scenario input (the two responses; the marker counts
of the scenario are irrelevant to the analyst code, which never reads the
marker). -/
def scenarioAnalystEnv : AnalystEnv := ⟨"ok", "ok"⟩

/-- Paths reported for the developer stage, one of them Windows-style and one
of them outside the developer allow-list. -/
def sampleArtifacts : List String :=
  ["backend\\src\\app.py", ".sureai/tasks_list.md", "other.md"]

/-! ## Loop lemmas -/

/-- One iteration of the developer loop when the read is non-zero and the
continuation invocation succeeds. -/
theorem devLoop_step (env : DevEnv) (n readIdx invs iters : Nat)
    (last : Option Nat) (b : Bool)
    (h0 : env.counts readIdx ≠ 0) (hk0 : env.contOk invs = true) :
    devLoop env (n + 1) readIdx invs iters last b =
      devLoop env n (readIdx + 1) (invs + 1) (iters + 1)
        (some (env.counts readIdx))
        (devImprovedUpdate last (env.counts readIdx) b) := by
  simp only [devLoop, if_neg h0, hk0, if_true]

/-- When every read in the window is non-zero and every continuation
invocation succeeds, the developer loop consumes its whole budget, advancing
every counter by `fuel`; a dead `improved` flag stays dead. -/
theorem devLoop_exhausts (env : DevEnv) :
    ∀ (fuel readIdx invs iters : Nat) (last : Option Nat) (b : Bool),
      (∀ k, k < fuel → env.counts (readIdx + k) ≠ 0) →
      (∀ k, k < fuel → env.contOk (invs + k) = true) →
      ∃ b', devLoop env fuel readIdx invs iters last b =
          .fallThrough (readIdx + fuel) b' (invs + fuel) (iters + fuel) ∧
        (b = false → b' = false) := by
  intro fuel
  induction fuel with
  | zero => intro readIdx invs iters last b _ _; exact ⟨b, rfl, fun h => h⟩
  | succ n ih =>
    intro readIdx invs iters last b hc hok
    have h0 : env.counts readIdx ≠ 0 := by simpa using hc 0 (Nat.succ_pos n)
    have hk0 : env.contOk invs = true := by simpa using hok 0 (Nat.succ_pos n)
    obtain ⟨b', hb', habs⟩ := ih (readIdx + 1) (invs + 1) (iters + 1)
      (some (env.counts readIdx))
      (devImprovedUpdate last (env.counts readIdx) b)
      (fun k hk => by
        have h := hc (k + 1) (Nat.succ_lt_succ hk)
        have e : readIdx + 1 + k = readIdx + (k + 1) := by omega
        rw [e]; exact h)
      (fun k hk => by
        have h := hok (k + 1) (Nat.succ_lt_succ hk)
        have e : invs + 1 + k = invs + (k + 1) := by omega
        rw [e]; exact h)
    refine ⟨b', ?_, ?_⟩
    · rw [devLoop_step env n readIdx invs iters last b h0 hk0, hb']
      have e1 : readIdx + 1 + n = readIdx + (n + 1) := by omega
      have e2 : invs + 1 + n = invs + (n + 1) := by omega
      have e3 : iters + 1 + n = iters + (n + 1) := by omega
      rw [e1, e2, e3]
    · intro hb
      apply habs
      cases last with
      | none => simpa [devImprovedUpdate] using hb
      | some l =>
        simp only [devImprovedUpdate]
        split <;> simp [hb]

/-- If, inside the budget window, some read is at least as large as the read
before it, the developer loop still consumes its whole budget but ends with
`improved = false`. -/
theorem devLoop_stall (env : DevEnv) :
    ∀ (j fuel readIdx invs iters : Nat) (last : Option Nat) (b : Bool),
      (∀ k, k < fuel → env.counts (readIdx + k) ≠ 0) →
      (∀ k, k < fuel → env.contOk (invs + k) = true) →
      j + 1 < fuel →
      env.counts (readIdx + j) ≤ env.counts (readIdx + j + 1) →
      devLoop env fuel readIdx invs iters last b =
        .fallThrough (readIdx + fuel) false (invs + fuel) (iters + fuel) := by
  intro j
  induction j with
  | zero =>
    intro fuel readIdx invs iters last b hc hok hlt hle
    match fuel, hlt with
    | m + 2, _ =>
      have h0 : env.counts readIdx ≠ 0 := by simpa using hc 0 (by omega)
      have h1 : env.counts (readIdx + 1) ≠ 0 := by simpa using hc 1 (by omega)
      have hk0 : env.contOk invs = true := by simpa using hok 0 (by omega)
      have hk1 : env.contOk (invs + 1) = true := by simpa using hok 1 (by omega)
      have hle' : env.counts readIdx ≤ env.counts (readIdx + 1) := by
        simpa using hle
      obtain ⟨b', hb', habs⟩ := devLoop_exhausts env m (readIdx + 1 + 1)
        (invs + 1 + 1) (iters + 1 + 1) (some (env.counts (readIdx + 1))) false
        (fun k hk => by
          have h := hc (k + 2) (by omega)
          have e : readIdx + 1 + 1 + k = readIdx + (k + 2) := by omega
          rw [e]; exact h)
        (fun k hk => by
          have h := hok (k + 2) (by omega)
          have e : invs + 1 + 1 + k = invs + (k + 2) := by omega
          rw [e]; exact h)
      have himp : ∀ c : Bool, devImprovedUpdate (some (env.counts readIdx))
          (env.counts (readIdx + 1)) c = false := by
        intro c
        simp only [devImprovedUpdate]
        rw [if_pos hle']
      rw [devLoop_step env (m + 1) readIdx invs iters last b h0 hk0,
        devLoop_step env m (readIdx + 1) (invs + 1) (iters + 1)
          (some (env.counts readIdx))
          (devImprovedUpdate last (env.counts readIdx) b) h1 hk1,
        himp, hb', habs rfl]
      have e1 : readIdx + 1 + 1 + m = readIdx + (m + 2) := by omega
      have e2 : invs + 1 + 1 + m = invs + (m + 2) := by omega
      have e3 : iters + 1 + 1 + m = iters + (m + 2) := by omega
      rw [e1, e2, e3]
  | succ j ih =>
    intro fuel readIdx invs iters last b hc hok hlt hle
    match fuel, hlt with
    | m + 1, hlt =>
      have h0 : env.counts readIdx ≠ 0 := by simpa using hc 0 (by omega)
      have hk0 : env.contOk invs = true := by simpa using hok 0 (by omega)
      have hrec := ih m (readIdx + 1) (invs + 1) (iters + 1)
        (some (env.counts readIdx))
        (devImprovedUpdate last (env.counts readIdx) b)
        (fun k hk => by
          have h := hc (k + 1) (by omega)
          have e : readIdx + 1 + k = readIdx + (k + 1) := by omega
          rw [e]; exact h)
        (fun k hk => by
          have h := hok (k + 1) (by omega)
          have e : invs + 1 + k = invs + (k + 1) := by omega
          rw [e]; exact h)
        (by omega)
        (by
          have e1 : readIdx + 1 + j = readIdx + (j + 1) := by omega
          rw [e1]; exact hle)
      rw [devLoop_step env m readIdx invs iters last b h0 hk0, hrec]
      have e1 : readIdx + 1 + m = readIdx + (m + 1) := by omega
      have e2 : invs + 1 + m = invs + (m + 1) := by omega
      have e3 : iters + 1 + m = iters + (m + 1) := by omega
      rw [e1, e2, e3]

/-- When every read in the window is non-zero, the tester loop consumes its
whole budget. -/
theorem testerLoop_exhausts (env : TesterEnv) :
    ∀ (fuel readIdx iters remaining : Nat),
      remaining ≠ 0 →
      (∀ k, k < fuel → env.counts (readIdx + k) ≠ 0) →
      testerLoop env fuel readIdx iters remaining =
        (readIdx + fuel, iters + fuel) := by
  intro fuel
  induction fuel with
  | zero => intro readIdx iters remaining _ _; simp [testerLoop]
  | succ n ih =>
    intro readIdx iters remaining hr hc
    have h0 : env.counts readIdx ≠ 0 := by simpa using hc 0 (Nat.succ_pos n)
    have hstep := ih (readIdx + 1) (iters + 1) (env.counts readIdx) h0
      (fun k hk => by
        have h := hc (k + 1) (Nat.succ_lt_succ hk)
        have e : readIdx + 1 + k = readIdx + (k + 1) := by omega
        rw [e]; exact h)
    simp only [testerLoop, if_neg hr]
    rw [hstep]
    have e1 : readIdx + 1 + n = readIdx + (n + 1) := by omega
    have e2 : iters + 1 + n = iters + (n + 1) := by omega
    rw [e1, e2]

/-! ## Supporting lemmas for artifact recording -/

/-- A list containing `c` contains the one-element substring `[c]`. -/
theorem charsContain_of_mem (c : Char) :
    ∀ (s : List Char), c ∈ s → charsContain s [c] = true := by
  intro s
  induction s with
  | nil => intro h; cases h
  | cons x rest ih =>
    intro hmem
    simp only [charsContain, Bool.or_eq_true]
    rcases List.mem_cons.mp hmem with h | h
    · left; simp [List.isPrefixOf, h]
    · right; exact ih h

/-- Characters of a verified suffix are characters of the whole string. -/
theorem mem_of_pyEndsWith {f post : String} {c : Char}
    (h : pyEndsWith f post = true) (hc : c ∈ post.toList) : c ∈ f.toList := by
  have hp : post.toList.reverse <+: f.toList.reverse :=
    List.isPrefixOf_iff_prefix.mp h
  have hm : c ∈ f.toList.reverse := hp.subset (by simpa using hc)
  simpa using hm

/-- A string with a dot among its characters contains `"."`. -/
theorem pyContains_dot {f : String} (h : ('.' : Char) ∈ f.toList) :
    pyContains f "." = true := by
  simpa [pyContains] using charsContain_of_mem '.' f.toList h

/-- A member of `sureaiMdFiles` ends with `.md`, hence contains a dot. -/
theorem sureaiMd_contains_dot {filtered : List String} {m : String}
    (h : (sureaiMdFiles filtered).head? = some m) : pyContains m "." = true := by
  have hmem : m ∈ sureaiMdFiles filtered := by
    cases hl : sureaiMdFiles filtered with
    | nil => rw [hl] at h; cases h
    | cons x xs =>
      rw [hl] at h
      simp only [List.head?_cons, Option.some.injEq] at h
      subst h
      exact List.mem_cons_self x xs
  have hpred := (List.mem_filter.mp hmem).2
  simp only [Bool.and_eq_true] at hpred
  exact pyContains_dot (mem_of_pyEndsWith hpred.1 (by decide))

/-- The in-progress-file heuristic of `update_agent_artifacts` computes
exactly the claim's preference rule: the final "looks like a directory"
rejection never fires, because every candidate ends in `.md` and so contains
a dot. -/
theorem chooseInProgress_eq_spec (agent : String) (filtered : List String) :
    chooseInProgress agent filtered = specInProgressHint agent filtered := by
  by_cases hds : agent = "developer" ∨ agent = "sm"
  · have hnt : agent ≠ "tester" := by
      rcases hds with h | h <;> subst h <;> decide
    cases hfind : filtered.find? (fun f => pyEndsWith f "tasks_list.md") with
    | none =>
      cases hhead : (sureaiMdFiles filtered).head? with
      | none =>
        simp [chooseInProgress, specInProgressHint, hds, hnt, hfind, hhead]
      | some m =>
        have hdot := sureaiMd_contains_dot hhead
        simp [chooseInProgress, specInProgressHint, hds, hnt, hfind, hhead,
          hdot]
    | some f =>
      have hf : pyEndsWith f "tasks_list.md" = true := by
        have h2 := List.find?_some hfind
        simpa using h2
      have hdot : pyContains f "." = true :=
        pyContains_dot (mem_of_pyEndsWith hf (by decide))
      simp [chooseInProgress, specInProgressHint, hds, hnt, hfind, hdot]
  · by_cases ht : agent = "tester"
    · cases hfind : filtered.find? (fun f => pyEndsWith f "test-list.md") with
      | none =>
        cases hhead : (sureaiMdFiles filtered).head? with
        | none =>
          simp [chooseInProgress, specInProgressHint, hds, ht, hfind, hhead]
        | some m =>
          have hdot := sureaiMd_contains_dot hhead
          simp [chooseInProgress, specInProgressHint, hds, ht, hfind, hhead,
            hdot]
      | some f =>
        have hf : pyEndsWith f "test-list.md" = true := by
          have h2 := List.find?_some hfind
          simpa using h2
        have hdot : pyContains f "." = true :=
          pyContains_dot (mem_of_pyEndsWith hf (by decide))
        simp [chooseInProgress, specInProgressHint, hds, ht, hfind, hdot]
    · cases hhead : (sureaiMdFiles filtered).head? with
      | none =>
        simp [chooseInProgress, specInProgressHint, hds, ht, hhead]
      | some m =>
        have hdot := sureaiMd_contains_dot hhead
        simp [chooseInProgress, specInProgressHint, hds, ht, hhead, hdot]

/-! ## Supporting lemma for progress monotonicity -/

/-- The tail of the write list starting at stage `i` is sorted and bounded
below by stage `i`'s start write. -/
theorem workflowGo_pairwise (n : Nat) (failAt : Option Nat) :
    ∀ (fuel i : Nat), i + fuel = n →
      List.Pairwise (· ≤ ·) (workflowGo n failAt i fuel) ∧
      (∀ x ∈ workflowGo n failAt i fuel, i * 100 / n ≤ x) := by
  intro fuel
  induction fuel with
  | zero =>
    intro i hi
    refine ⟨List.pairwise_singleton _ _, ?_⟩
    intro x hx
    simp only [workflowGo, List.mem_singleton] at hx
    subst hx
    have hin : i ≤ n := by omega
    calc i * 100 / n ≤ n * 100 / n :=
          Nat.div_le_div_right (Nat.mul_le_mul_right 100 hin)
      _ ≤ 100 := by
          rcases Nat.eq_zero_or_pos n with h0 | hpos
          · simp [h0]
          · rw [Nat.mul_comm, Nat.mul_div_cancel 100 hpos]
  | succ fuel ih =>
    intro i hi
    by_cases hf : failAt = some i
    · constructor
      · simp [workflowGo, hf]
      · intro x hx
        simp only [workflowGo, hf, ite_true, List.mem_singleton] at hx
        subst hx
        exact Nat.le_refl _
    · obtain ⟨ihp, ihb⟩ := ih (i + 1) (by omega)
      have hse : i * 100 / n ≤ (i + 1) * 100 / n :=
        Nat.div_le_div_right (Nat.mul_le_mul_right 100 (by omega))
      constructor
      · simp only [workflowGo, if_neg hf]
        refine List.Pairwise.cons ?_ (List.Pairwise.cons ?_ ihp)
        · intro b hb
          rcases List.mem_cons.mp hb with h | h
          · subst h; exact hse
          · exact Nat.le_trans hse (ihb b h)
        · intro b hb; exact ihb b hb
      · intro x hx
        simp only [workflowGo, if_neg hf, List.mem_cons] at hx
        rcases hx with h | h | h
        · subst h; exact Nat.le_refl _
        · subst h; exact hse
        · exact Nat.le_trans hse (ihb x h)

/-! ## Claim theorems -/

/-- Claim C1: for both completion-gated stages (developer and tester), the
returned status is `success` exactly when the final open-item count of the
stage's progress marker is 0; with open items remaining the status is
`partial` or `failed`, never `success`. -/
theorem completionGate_success_iff_zero :
    ∀ (denv : DevEnv) (tenv : TesterEnv),
      ((executeDeveloperPhase denv).status = "success" ↔
        (executeDeveloperPhase denv).remaining = 0) ∧
      ((executeTesterPhase tenv).status = "success" ↔
        (executeTesterPhase tenv).remaining = 0) := by
  intro denv tenv
  constructor
  · cases hdl : devLoop denv 10 0 0 0 none true with
    | earlySuccess b invs iters => simp [executeDeveloperPhase, hdl]
    | fallThrough readIdx b invs iters =>
      by_cases h : denv.counts readIdx = 0
      · simp [executeDeveloperPhase, hdl, h]
      · by_cases h2 : denv.counts (readIdx + 1) = 0
        · simp [executeDeveloperPhase, hdl, h, h2]
        · simp only [executeDeveloperPhase, hdl, if_neg h, if_neg h2]
          cases b <;>
            exact ⟨fun hs => absurd hs (by decide), fun hr => absurd hr h2⟩
  · by_cases h : tenv.counts (testerLoop tenv 30 1 0 (tenv.counts 0)).1 = 0
    · simp [executeTesterPhase, h]
    · simp only [executeTesterPhase, if_neg h]
      exact ⟨fun hs => absurd hs (by decide), fun hr => absurd hr h⟩

/-- Claim C2: a stdin-mode run that exits non-zero with a diagnostic
classified as `quota_exceeded` or `unauthorized` makes the invocation policy
raise that error immediately: the arg-mode fallback is never started, no
retry happens whatever `max_retries` is, and the caller sees the classified
error after one stdin run.  The classifier maps `429 too many requests` and
`rate limit` to `quota_exceeded` and `unauthorized` to `unauthorized`. -/
theorem classifiedErrors_propagate_immediately :
    (∀ (env : CliEnv) (overallCap maxRetries : Nat) (r : RunOk)
        (e : GeminiCLIError),
      env.elapsedAt 0 < overallCap →
      env.stdinRun 0 = .ok r →
      r.exitCode ≠ 0 →
      classifyError r.stderr = some e →
      (e.code = "quota_exceeded" ∨ e.code = "unauthorized") →
      executeGeminiCliCommand env overallCap maxRetries =
        (.failure e.code e.message, ⟨1, 0⟩)) ∧
    classifyError "429 too many requests" =
      some ⟨"quota_exceeded", "429 too many requests"⟩ ∧
    classifyError "rate limit" = some ⟨"quota_exceeded", "rate limit"⟩ ∧
    classifyError "unauthorized" = some ⟨"unauthorized", "unauthorized"⟩ := by
  refine ⟨?_, by decide, by decide, by decide⟩
  intro env overallCap maxRetries r e h1 h2 h3 h4 h5
  have hstep : attemptStep env overallCap maxRetries 0 =
      ⟨.done (.failure e.code e.message), 1, 0⟩ := by
    have hnc : ¬ overallCap ≤ env.elapsedAt 0 := Nat.not_le.mpr h1
    have hcond : e.code = "unauthorized" ∨ e.code = "quota_exceeded" ∨
        maxRetries ≤ 0 := by tauto
    simp only [attemptStep, if_neg hnc, h2, if_neg h3, h4, handleClassified,
      if_pos hcond]
  show geminiAttemptLoop env overallCap maxRetries (maxRetries + 1) 0
      ⟨0, 0⟩ none = _
  simp only [geminiAttemptLoop, hstep]

/-- Witness for C2, at the spec's `429 too many requests` scenario. -/
theorem classifiedErrors_witness :
    executeGeminiCliCommand quotaCliEnv 900 2 =
      (.failure "quota_exceeded" "429 too many requests", ⟨1, 0⟩) :=
  classifiedErrors_propagate_immediately.1 quotaCliEnv 900 2
    ⟨"", "429 too many requests", 1⟩
    ⟨"quota_exceeded", "429 too many requests"⟩
    (by decide) rfl (by decide) (by decide) (Or.inl rfl)

/-- Claim C3: at any loop iteration, if total elapsed exceeds the overall
budget the runner raises the overall timeout (whatever output is still
arriving in the trace), and if total elapsed is within budget but the time
since the last line exceeds the idle budget it raises the idle timeout.  In
both cases the process is killed and the raised error carries only the
violated bound: the accumulated buffers (arbitrary in `st`) are discarded. -/
theorem streaming_timeouts_discard_buffers :
    ∀ (overall idle start : Nat) (exitCode : Int) (iter : LoopIter)
      (rest : List LoopIter) (st : RunState),
      (overall < iter.now - start →
        runCliWithStreaming overall idle start exitCode (iter :: rest) st =
          .error ⟨overall, true⟩) ∧
      (iter.now - start ≤ overall → idle < iter.now - st.lastOutput →
        runCliWithStreaming overall idle start exitCode (iter :: rest) st =
          .error ⟨idle, true⟩) := by
  intro overall idle start exitCode iter rest st
  constructor
  · intro h
    simp only [runCliWithStreaming, if_pos h]
  · intro h1 h2
    have hn : ¬ overall < iter.now - start := Nat.not_lt.mpr h1
    simp only [runCliWithStreaming, if_neg hn, if_pos h2]

/-- Witness for C3: an overall-timeout firing and an idle-timeout firing at
concrete clocks. -/
theorem streaming_timeouts_witness :
    runCliWithStreaming 10 2 0 0 [overallTimeoutIter] initialStreamState =
      .error ⟨10, true⟩ ∧
    runCliWithStreaming 10 2 0 0 [idleTimeoutIter] initialStreamState =
      .error ⟨2, true⟩ :=
  ⟨(streaming_timeouts_discard_buffers 10 2 0 0 overallTimeoutIter []
      initialStreamState).1 (by decide),
   (streaming_timeouts_discard_buffers 10 2 0 0 idleTimeoutIter []
      initialStreamState).2 (by decide) (by decide)⟩

/-- Counterexample to C4: with the marker stuck at 5 open items, the tester
stage exhausts its 30 iterations and returns directly — 30 invocations, not
the claimed 30 + 1; there is no final best-effort invocation in the tester
stage. -/
theorem tester_no_final_attempt_cex :
    (executeTesterPhase stalledTesterEnv).remaining ≠ 0 ∧
    (executeTesterPhase stalledTesterEnv).iterationsRun = 30 ∧
    (executeTesterPhase stalledTesterEnv).invocations ≠
      (executeTesterPhase stalledTesterEnv).iterationsRun + 1 ∧
    (executeTesterPhase stalledTesterEnv).status = "partial" := by decide

/-- Claim C4 as amended: only the developer stage issues the one final
best-effort invocation after exhausting its bound (and then reports success
exactly when the re-count is 0); the tester stage, after exhausting its 30
iterations with items open, returns `partial` directly with no additional
invocation. -/
theorem finalBestEffort_developer_only :
    (∀ env : DevEnv,
      (∀ k, env.contOk k = true) →
      (∀ k, k ≤ 10 → env.counts k ≠ 0) →
      (executeDeveloperPhase env).finalAttempted = true ∧
      (executeDeveloperPhase env).invocations = 11 ∧
      (executeDeveloperPhase env).remaining = env.counts 11 ∧
      ((executeDeveloperPhase env).status = "success" ↔
        env.counts 11 = 0)) ∧
    (∀ tenv : TesterEnv,
      (∀ k, tenv.counts k ≠ 0) →
      (executeTesterPhase tenv).invocations =
        (executeTesterPhase tenv).iterationsRun ∧
      (executeTesterPhase tenv).iterationsRun = 30 ∧
      (executeTesterPhase tenv).status = "partial") := by
  constructor
  · intro env hok hc
    obtain ⟨b', hb', -⟩ := devLoop_exhausts env 10 0 0 0 none true
      (fun k hk => by rw [Nat.zero_add]; exact hc k (Nat.le_of_lt hk))
      (fun k _ => by rw [Nat.zero_add]; exact hok k)
    simp only [Nat.zero_add] at hb'
    have h10 : env.counts 10 ≠ 0 := hc 10 (by omega)
    simp only [executeDeveloperPhase, hb', if_neg h10]
    refine ⟨by trivial, by trivial, by trivial, ?_⟩
    by_cases h11 : env.counts (10 + 1) = 0
    · simp [h11]
    · simp only [if_neg h11]
      cases b' <;>
        exact ⟨fun hs => absurd hs (by decide), fun hr => absurd hr h11⟩
  · intro tenv hc
    have hloop := testerLoop_exhausts tenv 30 1 0 (tenv.counts 0) (hc 0)
      (fun k _ => hc (1 + k))
    have h31 : tenv.counts (1 + 30) ≠ 0 := hc (1 + 30)
    simp only [executeTesterPhase, hloop]
    exact ⟨by trivial, by trivial, by rw [if_neg h31]⟩

/-- Witness for the amended C4: at the stuck-at-5 environments, the developer
issues the final attempt (11 invocations) and the tester stops at 30. -/
theorem finalBestEffort_witness :
    (executeDeveloperPhase constDevEnv).finalAttempted = true ∧
    (executeDeveloperPhase constDevEnv).invocations = 11 ∧
    (executeTesterPhase stalledTesterEnv).iterationsRun = 30 ∧
    (executeTesterPhase stalledTesterEnv).status = "partial" := by
  have h := finalBestEffort_developer_only
  have hd := h.1 constDevEnv (fun _ => rfl) (fun _ _ => (by decide : (5 : Nat) ≠ 0))
  have ht := h.2 stalledTesterEnv (fun _ => (by decide : (5 : Nat) ≠ 0))
  exact ⟨hd.1, hd.2.1, ht.2.1, ht.2.2⟩

/-- Claim C5: in the developer convergence loop, a read that is not strictly
below the previous one turns the `improved` flag off for good (the final
status becomes `failed` rather than `partial`), yet the loop still runs all
10 iterations — it never exits early on the non-improvement signal; the
tester loop likewise always runs to its 30-iteration bound while items
remain. -/
theorem notImproving_continues_to_bound :
    (∀ env : DevEnv,
      (∀ k, env.contOk k = true) →
      (∀ k, env.counts k ≠ 0) →
      (executeDeveloperPhase env).iterationsRun = 10 ∧
      (∀ j, j + 1 ≤ 9 → env.counts j ≤ env.counts (j + 1) →
        (executeDeveloperPhase env).improved = false ∧
        (executeDeveloperPhase env).status = "failed")) ∧
    (∀ tenv : TesterEnv, (∀ k, tenv.counts k ≠ 0) →
      (executeTesterPhase tenv).iterationsRun = 30) := by
  constructor
  · intro env hok hc
    constructor
    · obtain ⟨b', hb', -⟩ := devLoop_exhausts env 10 0 0 0 none true
        (fun k _ => by rw [Nat.zero_add]; exact hc k)
        (fun k _ => by rw [Nat.zero_add]; exact hok k)
      simp only [Nat.zero_add] at hb'
      have h10 : env.counts 10 ≠ 0 := hc 10
      simp only [executeDeveloperPhase, hb', if_neg h10]
    · intro j hj hle
      have hst := devLoop_stall env j 10 0 0 0 none true
        (fun k _ => by rw [Nat.zero_add]; exact hc k)
        (fun k _ => by rw [Nat.zero_add]; exact hok k)
        (by omega)
        (by rw [Nat.zero_add]; exact hle)
      simp only [Nat.zero_add] at hst
      have h10 : env.counts 10 ≠ 0 := hc 10
      have h11 : env.counts (10 + 1) ≠ 0 := hc (10 + 1)
      simp only [executeDeveloperPhase, hst, if_neg h10, if_neg h11]
      exact ⟨by trivial, by simp⟩
  · intro tenv hc
    have hloop := testerLoop_exhausts tenv 30 1 0 (tenv.counts 0) (hc 0)
      (fun k _ => hc (1 + k))
    simp only [executeTesterPhase, hloop]

/-- Witness for C5 at the stuck-at-5 environments. -/
theorem notImproving_witness :
    (executeDeveloperPhase constDevEnv).iterationsRun = 10 ∧
    (executeDeveloperPhase constDevEnv).improved = false ∧
    (executeDeveloperPhase constDevEnv).status = "failed" ∧
    (executeTesterPhase stalledTesterEnv).iterationsRun = 30 := by
  have h := notImproving_continues_to_bound
  have hd := h.1 constDevEnv (fun _ => rfl) (fun _ => (by decide : (5 : Nat) ≠ 0))
  have hj := hd.2 0 (by omega) (by decide)
  exact ⟨hd.1, hj.1, hj.2,
    h.2 stalledTesterEnv (fun _ => (by decide : (5 : Nat) ≠ 0))⟩

/-- Claim C6: the sanitizer leaves every non-`.gitkeep` file either
whitespace-only or holding exactly the extension-selected placeholder, and
every file that had non-whitespace content is overwritten with that
placeholder; the output files are exactly the per-file sanitizations of the
walked files. -/
theorem sanitize_enforces_placeholders :
    (∀ f : CodeFile, f.name ≠ ".gitkeep" →
      (pyStrip (sanitizeFile f).content = "" ∨
        (sanitizeFile f).content = placeholderFor f.name) ∧
      (pyStrip f.content ≠ "" →
        (sanitizeFile f).content = placeholderFor f.name) ∧
      (sanitizeFile f).name = f.name) ∧
    (∀ (files : List CodeFile) (g : CodeFile),
      g ∈ sanitizeCodeDirectories files →
      ∃ f, f ∈ files ∧ g = sanitizeFile f) := by
  constructor
  · intro f hname
    by_cases hc : pyStrip f.content = ""
    · have he : sanitizeFile f = f := by simp [sanitizeFile, hname, hc]
      rw [he]
      exact ⟨Or.inl hc, fun hcc => absurd hc hcc, rfl⟩
    · have he : sanitizeFile f = { f with content := placeholderFor f.name } := by
        simp [sanitizeFile, hname, hc]
      rw [he]
      exact ⟨Or.inr rfl, fun _ => rfl, rfl⟩
  · intro files g hg
    simp only [sanitizeCodeDirectories, List.mem_map] at hg
    obtain ⟨f, hf, hfeq⟩ := hg
    exact ⟨f, hf, hfeq.symm⟩

/-- Witness for C6: a Python file with real code is overwritten with the
Python placeholder comment. -/
theorem sanitize_witness :
    (sanitizeFile samplePyFile).content = placeholderFor samplePyFile.name ∧
    (sanitizeFile samplePyFile).content =
      "# Placeholder - to be implemented by Developer agent\n" :=
  ⟨(sanitize_enforces_placeholders.1 samplePyFile (by decide)).2.1 (by decide),
   by decide⟩

/-- Counterexample to C7: under the spec's scenario the analysis stage makes
2 invocations, not the claimed 3 — it runs no convergence loop on the
progress marker. -/
theorem analyst_two_invocations_cex :
    (executeAnalystPhase scenarioAnalystEnv).invocations = 2 ∧
    ¬ (executeAnalystPhase scenarioAnalystEnv).invocations = 3 := by decide

/-- Claim C7 as amended: the analysis stage is not completion-gated — it
makes exactly 2 invocations (agent-file creation, then document creation)
and returns `success` unconditionally, independent of any progress-marker
contents; the final status of the scenario is `success`, but through this
fixed two-invocation path, not a convergence loop. -/
theorem analyst_not_completion_gated :
    ∀ env : AnalystEnv,
      (executeAnalystPhase env).status = "success" ∧
      (executeAnalystPhase env).invocations = 2 ∧
      (executeAnalystPhase env).response = env.docsResponse :=
  fun _ => ⟨rfl, rfl, rfl⟩

/-- Claim C8: for every stage with a declared allow-list, the stored
`files_created` are exactly the reported (normalized) paths that equal an
allow-listed path or start with an allow-listed prefix, and the in-progress
hint follows the claim's preference rule (`tasks_list.md` for developer/sm,
`test-list.md` for tester, first `.sureai` markdown file otherwise). -/
theorem recordArtifacts_filter_and_hint :
    ∀ (agent : String) (filesCreated : List String),
      agentOutputs agent ≠ [] →
      (updateAgentArtifacts agent filesCreated).1 =
        specFilteredArtifacts agent filesCreated ∧
      (updateAgentArtifacts agent filesCreated).2 =
        specInProgressHint agent (specFilteredArtifacts agent filesCreated) := by
  intro agent filesCreated hne
  have hie : (agentOutputs agent).isEmpty = false := by
    cases hq : (agentOutputs agent).isEmpty
    · rfl
    · exact absurd (List.isEmpty_iff.mp hq) hne
  have hfeq : filteredArtifacts agent filesCreated =
      specFilteredArtifacts agent filesCreated := by
    simp only [filteredArtifacts, specFilteredArtifacts]
    apply List.filter_congr
    intro n _
    simp only [keepArtifact]
    rw [hie, Bool.or_false]
  refine ⟨hfeq, ?_⟩
  show chooseInProgress agent (filteredArtifacts agent filesCreated) = _
  rw [hfeq, chooseInProgress_eq_spec]

/-- Witness for C8 at the developer stage with a mixed report. -/
theorem recordArtifacts_witness :
    (updateAgentArtifacts "developer" sampleArtifacts).1 =
      specFilteredArtifacts "developer" sampleArtifacts ∧
    (updateAgentArtifacts "developer" sampleArtifacts).2 =
      specInProgressHint "developer"
        (specFilteredArtifacts "developer" sampleArtifacts) :=
  recordArtifacts_filter_and_hint "developer" sampleArtifacts (by decide)

/-- Claim C9: within one workflow run the sequence of persisted progress
percentages — `⌊i·100/n⌋` at stage start, `⌊(i+1)·100/n⌋` at stage end, `100`
after the loop, cut short at the failing stage's start write if the run
fails — is monotonically non-decreasing: every write is at least every
earlier write. -/
theorem progress_writes_monotone :
    ∀ (n : Nat) (failAt : Option Nat),
      List.Pairwise (· ≤ ·) (workflowProgressWrites n failAt) :=
  fun n failAt => (workflowGo_pairwise n failAt n 0 (by omega)).1

/-- Claim C10: a missing (or unreadable) progress-marker file counts as 0
open items, so both completion-gated stages treat the stage as converged and
report `success` without any continuation invocation — even though no
checklist was ever produced. -/
theorem missingMarker_reports_success :
    countOpenSubtasks none = 0 ∧ countOpenTests none = 0 ∧
    (∀ env : DevEnv, (∀ k, env.counts k = countOpenSubtasks none) →
      (executeDeveloperPhase env).status = "success" ∧
      (executeDeveloperPhase env).remaining = 0 ∧
      (executeDeveloperPhase env).invocations = 0) ∧
    (∀ tenv : TesterEnv, (∀ k, tenv.counts k = countOpenTests none) →
      (executeTesterPhase tenv).status = "success" ∧
      (executeTesterPhase tenv).invocations = 0) := by
  refine ⟨rfl, rfl, ?_, ?_⟩
  · intro env hc
    have h0 : env.counts 0 = 0 := hc 0
    have hdl : devLoop env 10 0 0 0 none true = .earlySuccess true 0 0 := by
      simp [devLoop, h0]
    simp [executeDeveloperPhase, hdl]
  · intro tenv hc
    have h0 : tenv.counts 0 = 0 := hc 0
    have hloop : testerLoop tenv 30 1 0 (tenv.counts 0) = (1, 0) := by
      simp [testerLoop, h0]
    have h1 : tenv.counts 1 = 0 := hc 1
    simp [executeTesterPhase, hloop, h1]

/-- Witness for C10 at the never-existing-marker environments. -/
theorem missingMarker_witness :
    (executeDeveloperPhase zeroDevEnv).status = "success" ∧
    (executeTesterPhase zeroTesterEnv).status = "success" :=
  ⟨(missingMarker_reports_success.2.2.1 zeroDevEnv (fun _ => rfl)).1,
   (missingMarker_reports_success.2.2.2 zeroTesterEnv (fun _ => rfl)).1⟩

end BmadSpec
